import Mathlib

/-!
Shallow embedding of `src/ollama_proxy.py` (an HTTP translation proxy between
an OpenAI-style chat API, an Ollama-style completion API, and one upstream
LM Studio `/v1/completions` endpoint).

JSON bodies are modelled by the inductive `JVal`; Python dict/list accessor
semantics (`.get`, `d[k]`, `xs[0]`, iteration, `str()`) are modelled as
functions returning `Except PyErr _` so that the exact exception behaviour of
the source is captured.  The HTTP layer is modelled by passing the upstream
outcome (`UnaryOutcome` / `StreamOutcome`) as an explicit argument to the
route handlers; FastAPI's translation of an unhandled Python exception into a
500 response is modelled by `resultStatus`.
-/

/-- Python exception kinds that the proxy code can raise while translating
request/response bodies. -/
inductive PyErr where
  | keyError
  | attributeError
  | typeError
  | indexError
  | responseNotRead
deriving DecidableEq

/-- JSON-like values as Python would hold them after `response.json()`.
Numbers are modelled as `Int`: every number the proxy manipulates inside a
JSON body (`created`, `index`, ...) is an integer; float formatting is out of
scope of the claims. -/
inductive JVal where
  | jnull
  | jbool (b : Bool)
  | jnum (n : Int)
  | jstr (s : String)
  | jarr (xs : List JVal)
  | jobj (fields : List (String × JVal))

/-- Lookup of a key in a Python dict, modelled as an association list
(first match wins; Python dicts have unique keys). -/
def lookupKey {α : Type} : List (String × α) → String → Option α
  | [], _ => none
  | (k, v) :: rest, key => if key == k then some v else lookupKey rest key

/-- Python `d.get(key, default)`: only dicts have `.get`; calling it on any
other value raises `AttributeError`. -/
def jget (v : JVal) (key : String) (default : JVal) : Except PyErr JVal :=
  match v with
  | .jobj fs => .ok ((lookupKey fs key).getD default)
  | _ => .error .attributeError

/-- Python `d[key]` with a string key: `KeyError` on a dict without the key,
`TypeError` on values that are not subscriptable by a string. -/
def jgetitem (v : JVal) (key : String) : Except PyErr JVal :=
  match v with
  | .jobj fs =>
      match lookupKey fs key with
      | some w => .ok w
      | none => .error .keyError
  | _ => .error .typeError

/-- Python `xs[0]`: first element of a list, first character of a string
(as a one-character string), `IndexError` when empty, `KeyError` for a dict
indexed by the integer 0 (our dict keys are strings), `TypeError` otherwise. -/
def jindex0 (v : JVal) : Except PyErr JVal :=
  match v with
  | .jarr (x :: _) => .ok x
  | .jarr [] => .error .indexError
  | .jstr s =>
      match s.data with
      | c :: _ => .ok (.jstr (String.mk [c]))
      | [] => .error .indexError
  | .jobj _ => .error .keyError
  | _ => .error .typeError

/-- Python iteration `for x in v`: lists yield elements, strings yield
one-character strings, dicts yield their keys, everything else raises
`TypeError`. -/
def jiter (v : JVal) : Except PyErr (List JVal) :=
  match v with
  | .jarr xs => .ok xs
  | .jstr s => .ok (s.data.map fun c => .jstr (String.mk [c]))
  | .jobj fs => .ok (fs.map fun kv => .jstr kv.1)
  | _ => .error .typeError

/-- The apostrophe character, used by Python `repr` of strings. -/
def pyQuote : Char := Char.ofNat 39

/-- Python `sep.join(...)` / joining with a separator, structurally
recursive so that concrete evaluations reduce in the kernel. -/
def pyJoin (sep : String) : List String → String
  | [] => ""
  | [x] => x
  | x :: xs => x ++ sep ++ pyJoin sep xs

/-- Python `s.upper()` (ASCII uppercasing, which covers every role the
claims touch), structurally recursive so that concrete evaluations reduce
in the kernel. -/
def pyUpperStr (s : String) : String := String.mk (s.data.map Char.toUpper)

mutual

/-- Python `repr()` of a JSON-like value (`None`, `True`, decimal integers,
single-quoted strings, bracketed lists, braced dicts).  String escaping
inside `repr` is modelled for quote-free strings, which is all any claim
touches. -/
def pyRepr : JVal → String
  | .jnull => "None"
  | .jbool true => "True"
  | .jbool false => "False"
  | .jnum n => toString n
  | .jstr s => String.mk [pyQuote] ++ s ++ String.mk [pyQuote]
  | .jarr xs => "[" ++ pyJoin ", " (pyReprList xs) ++ "]"
  | .jobj fs => "\x7b" ++ pyJoin ", " (pyReprFields fs) ++ "\x7d"

/-- `repr` of each element of a Python list. -/
def pyReprList : List JVal → List String
  | [] => []
  | v :: vs => pyRepr v :: pyReprList vs

/-- `repr` of each `key: value` entry of a Python dict. -/
def pyReprFields : List (String × JVal) → List String
  | [] => []
  | (k, v) :: fs =>
      (String.mk [pyQuote] ++ k ++ String.mk [pyQuote] ++ ": " ++ pyRepr v) :: pyReprFields fs

end

/-- Python `str()` of a JSON-like value: identity on strings, `repr`-like on
everything else, as used by f-string interpolation. -/
def pyStr : JVal → String
  | .jstr s => s
  | v => pyRepr v

/-- Whitespace as recognised by Python's `str.strip` and the regex class
`\s` (ASCII range, which is all the proxy's markers involve). -/
def isPyWS (c : Char) : Bool :=
  c == ' ' || c == '\t' || c == '\n' || c == '\x0d' || c == '\x0c' || c == '\x0b'

/-- Remove trailing characters satisfying `isPyWS`. -/
def trimBack (xs : List Char) : List Char :=
  (xs.reverse.dropWhile isPyWS).reverse

/-- Python `text.strip()` on the character list of a string. -/
def stripList (xs : List Char) : List Char :=
  trimBack (xs.dropWhile isPyWS)

/-- Python `text.strip()` at the `String` level. -/
def pyStripStr (s : String) : String :=
  String.mk (stripList s.data)

/-- Case-insensitive "starts with" on character lists (regex `IGNORECASE`
matching of a literal pattern). -/
def startsWithCI : List Char → List Char → Bool
  | [], _ => true
  | _ :: _, [] => false
  | p :: ps, c :: cs => (p.toLower == c.toLower) && startsWithCI ps cs

/-- The start-of-turn marker matched by the first substitution of
`clean_lm_response`: the literal regex `<\|im_start\|>Assistant###`. -/
def markerChars : List Char := "<|im_start|>Assistant###".data

/-- Whether the marker occurs (case-insensitively) at the head of the text. -/
def markerAt (xs : List Char) : Bool := startsWithCI markerChars xs

/-- Whether the marker occurs (case-insensitively) anywhere in the text. -/
def containsMarker : List Char → Bool
  | [] => false
  | c :: cs => markerAt (c :: cs) || containsMarker cs

/-- One pass of `re.sub(r'<\|im_start\|>Assistant###\s*', '', text, IGNORECASE)`,
fuelled for kernel computability: scan left to right, delete every
(non-overlapping) occurrence of the marker together with the greedy run of
whitespace after it, and continue scanning after the deleted stretch, exactly
as `re.sub` does. -/
def subMarkerF : Nat → List Char → List Char
  | 0, xs => xs
  | _ + 1, [] => []
  | n + 1, c :: cs =>
      if markerAt (c :: cs) then
        subMarkerF n (((c :: cs).drop markerChars.length).dropWhile isPyWS)
      else
        c :: subMarkerF n cs

/-- The first substitution of `clean_lm_response` (fuel = input length, which
always suffices since every step consumes at least one character). -/
def subMarker (xs : List Char) : List Char := subMarkerF xs.length xs

/-- The alternatives of the second regex of `clean_lm_response`,
`^(ASSISTANT###|ASSISTANT:|<|im_start|>)+\s*`: because the `<|` and `|>` of
the intended token are unescaped pipes, the alternation is
`ASSISTANT###` / `ASSISTANT:` / `<` / `im_start` / `>`.  `eatAlt` consumes the
first alternative (in the regex's order) matching at the head of the text. -/
def eatAlt (xs : List Char) : Option (List Char) :=
  if startsWithCI "ASSISTANT###".data xs then some (xs.drop 12)
  else if startsWithCI "ASSISTANT:".data xs then some (xs.drop 10)
  else if startsWithCI "<".data xs then some (xs.drop 1)
  else if startsWithCI "im_start".data xs then some (xs.drop 8)
  else if startsWithCI ">".data xs then some (xs.drop 1)
  else none

/-- Greedy repetition of `eatAlt` (the `+` of the second regex), fuelled for
kernel computability. -/
def eatRunF : Nat → List Char → List Char
  | 0, xs => xs
  | n + 1, xs =>
      match eatAlt xs with
      | some r => eatRunF n r
      | none => xs

/-- The second substitution of `clean_lm_response`: if at least one
alternative matches at the start, delete the maximal run of alternatives and
the greedy run of whitespace after it; otherwise leave the text unchanged. -/
def stripLeadingAlts (xs : List Char) : List Char :=
  match eatAlt xs with
  | none => xs
  | some r => (eatRunF r.length r).dropWhile isPyWS

/-- `clean_lm_response` from the source: strip, remove all occurrences of the
start-of-turn marker (each with trailing whitespace), then remove one leading
run of the second regex's alternatives (with trailing whitespace). -/
def clean_lm_response (s : String) : String :=
  String.mk (stripLeadingAlts (subMarker (stripList s.data)))

/-- The fragments contributing text in `convert_messages_to_prompt`'s list
comprehension: items that are dicts and carry a `"text"` key, in order. -/
def textFragments : List JVal → List JVal
  | [] => []
  | .jobj fs :: rest =>
      match lookupKey fs "text" with
      | some v => v :: textFragments rest
      | none => textFragments rest
  | _ :: rest => textFragments rest

/-- Python `"\n".join(values)`: every joined value must be a `str`, otherwise
`TypeError` is raised. -/
def joinAsStrings : List JVal → Except PyErr (List String)
  | [] => .ok []
  | .jstr s :: rest =>
      match joinAsStrings rest with
      | .ok ss => .ok (s :: ss)
      | .error e => .error e
  | _ :: _ => .error .typeError

/-- The content-resolution step of `convert_messages_to_prompt`: a list is
replaced by the newline-join of its text fragments; any other value is left
for the f-string to format with `str()`. -/
def contentToString (v : JVal) : Except PyErr String :=
  match v with
  | .jarr items =>
      match joinAsStrings (textFragments items) with
      | .ok ss => .ok (pyJoin "\n" ss)
      | .error e => .error e
  | .jstr s => .ok s
  | other => .ok (pyStr other)

/-- Python `role.upper()`: only strings have `.upper`; any other value raises
`AttributeError`. -/
def pyUpper (v : JVal) : Except PyErr String :=
  match v with
  | .jstr s => .ok (pyUpperStr s)
  | _ => .error .attributeError

/-- The accumulation loop of `convert_messages_to_prompt`: for each message,
`msg.get("role", "user")`, `msg.get("content", "")`, resolve list content,
then append `f"ROLE: content\n"`; finally `prompt.strip()`.  Content is
resolved before the role's `.upper()` is called, matching Python's
evaluation order (the `join` runs in the `if` block before the f-string). -/
def convertAux (acc : String) : List JVal → Except PyErr String
  | [] => .ok (pyStripStr acc)
  | m :: ms =>
      match jget m "role" (.jstr "user") with
      | .error e => .error e
      | .ok roleV =>
          match jget m "content" (.jstr "") with
          | .error e => .error e
          | .ok contentV =>
              match contentToString contentV with
              | .error e => .error e
              | .ok contentS =>
                  match pyUpper roleV with
                  | .error e => .error e
                  | .ok roleS =>
                      convertAux (acc ++ roleS ++ ": " ++ contentS ++ "\n") ms

/-- `convert_messages_to_prompt` from the source. -/
def convert_messages_to_prompt (messages : List JVal) : Except PyErr String :=
  convertAux "" messages

/-- `MODEL_MAP` from the source: the model-alias table, applied only on the
chat-completion route. -/
def MODEL_MAP : List (String × String) :=
  [("qwen2.5", "qwen2.5-coder-32b-instruct-mlx")]

/-- `MODEL_MAP.get(request.model, request.model)`: alias if present, else the
caller's name unchanged. -/
def resolveModel (m : String) : String :=
  (lookupKey MODEL_MAP m).getD m

/-- The fixed timeout (seconds) passed to both `httpx.AsyncClient` calls. -/
def UPSTREAM_TIMEOUT_SECONDS : Nat := 120

/-- `ChatRequest` (pydantic model of the chat-completion route); `messages`
is just `list`, so its elements are arbitrary JSON values. -/
structure ChatRequest where
  model : String
  messages : List JVal
  stream : Bool := false
  temperature : Rat := 7 / 10
  max_tokens : Int := 512
  tools : Option JVal := none

/-- `OllamaRequest` (pydantic model of the simple-completion route). -/
structure OllamaRequest where
  model : String
  prompt : String
  stream : Bool := false
  temperature : Rat := 7 / 10
  max_tokens : Int := 512

/-- The single payload shape sent to LM Studio. -/
structure LMPayload where
  model : String
  prompt : String
  temperature : Rat
  max_tokens : Int
  stream : Bool

/-- The `lm_studio_payload` built by `chat_completions` (model name resolved
through the alias table, messages already compiled to `prompt`). -/
def chatPayload (req : ChatRequest) (prompt : String) : LMPayload :=
  { model := resolveModel req.model
    prompt := prompt
    temperature := req.temperature
    max_tokens := req.max_tokens
    stream := req.stream }

/-- The `lm_studio_payload` built by `generate_ollama` (model name kept
exactly as supplied by the caller). -/
def ollamaPayload (req : OllamaRequest) : LMPayload :=
  { model := req.model
    prompt := req.prompt
    temperature := req.temperature
    max_tokens := req.max_tokens
    stream := req.stream }

/-- Outcome of the unary upstream HTTP call, as the `try` block of either
handler observes it: `success` is a 2xx reply with parsed JSON body,
`httpError` is `raise_for_status` firing on a non-2xx status (carrying the
status code and the body text), `timeout` is `httpx.TimeoutException`, and
`transportError` is any other `httpx.RequestError`. -/
inductive UnaryOutcome where
  | success (body : JVal)
  | httpError (status : Nat) (bodyText : String)
  | timeout
  | transportError (detail : String)

/-- Failure during a streaming upstream call, after the status check
passed: a timeout or any other transport failure. -/
inductive StreamFail where
  | timeout
  | transport (detail : String)

/-- Behaviour of the streaming upstream call: either `raise_for_status`
fires (non-2xx status, before any chunk is produced), or some chunks arrive
and the stream then either ends normally (`failure = none`) or fails. -/
inductive StreamOutcome where
  | statusError (status : Nat) (bodyText : String)
  | streamed (chunks : List String) (failure : Option StreamFail)

/-- The observable outcome of running the streaming generator to
exhaustion: either it completes, having yielded `cs`, or it raises a Python
exception after yielding `cs` (aborting the committed event stream). -/
inductive StreamResult where
  | done (cs : List String)
  | raised (cs : List String) (e : PyErr)

/-- `stream_chat_response` from the source: relay each upstream chunk as it
arrives; on a timeout or transport error yield one final descriptive
`"ERROR: ..."` chunk and end.  The `HTTPStatusError` branch, however,
formats `e.response.text` — and on a streamed, never-read httpx response
accessing `.text` raises `httpx.ResponseNotRead` inside the except handler
(uncaught by the sibling handlers), so on a non-2xx upstream status the
generator raises having yielded nothing, and no ERROR chunk is produced
(the status code and unread upstream body of the outcome are never
rendered). -/
def stream_chat_response : StreamOutcome → StreamResult
  | .statusError _ _ => .raised [] .responseNotRead
  | .streamed cs none => .done cs
  | .streamed cs (some .timeout) =>
      .done (cs ++ ["ERROR: LM Studio request timed out"])
  | .streamed cs (some (.transport d)) =>
      .done (cs ++ ["ERROR: Request failed: " ++ d])

/-- What a route handler produces: a committed event stream, a JSON body, an
`HTTPException` raised by the handler, or an unhandled Python exception
(which FastAPI turns into a 500 response). -/
inductive RouteResult where
  | streaming (payload : LMPayload)
  | json (v : JVal)
  | httpError (status : Nat) (detail : String)
  | pythonError (e : PyErr)

/-- The downstream status code of a handler outcome; an unhandled Python
exception becomes FastAPI's 500 Internal Server Error. -/
def resultStatus : RouteResult → Nat
  | .streaming _ => 200
  | .json _ => 200
  | .httpError s _ => s
  | .pythonError _ => 500

/-- One converted choice of the chat response leg:
`{"index": choice["index"], "message": {"role": "assistant", "content":
clean_lm_response(choice["text"])}, "finish_reason": choice["finish_reason"]}`
with Python's evaluation order and exceptions (`clean_lm_response` calls
`.strip()` on the text, so a non-string text raises `AttributeError`). -/
def mapChoice (choice : JVal) : Except PyErr JVal :=
  match jgetitem choice "index" with
  | .error e => .error e
  | .ok idx =>
      match jgetitem choice "text" with
      | .error e => .error e
      | .ok txt =>
          match txt with
          | .jstr rawText =>
              match jgetitem choice "finish_reason" with
              | .error e => .error e
              | .ok fin =>
                  .ok (.jobj
                    [("index", idx),
                     ("message", .jobj
                       [("role", .jstr "assistant"),
                        ("content", .jstr (clean_lm_response rawText))]),
                     ("finish_reason", fin)])
          | _ => .error .attributeError

/-- The list comprehension over `lm_response["choices"]`. -/
def mapChoices : List JVal → Except PyErr (List JVal)
  | [] => .ok []
  | c :: cs =>
      match mapChoice c with
      | .error e => .error e
      | .ok v =>
          match mapChoices cs with
          | .error e => .error e
          | .ok vs => .ok (v :: vs)

/-- The non-streaming response leg of `chat_completions`: build the
OpenAI-compatible dict literal, evaluating `lm_response["id"]`,
`lm_response["created"]`, the comprehension over `lm_response["choices"]`,
and `lm_response["usage"]` in Python's key order, with no defaults. -/
def chatResponseLeg (modelName : String) (body : JVal) : Except PyErr JVal :=
  match jgetitem body "id" with
  | .error e => .error e
  | .ok idv =>
      match jgetitem body "created" with
      | .error e => .error e
      | .ok createdv =>
          match jgetitem body "choices" with
          | .error e => .error e
          | .ok choicesv =>
              match jiter choicesv with
              | .error e => .error e
              | .ok items =>
                  match mapChoices items with
                  | .error e => .error e
                  | .ok outChoices =>
                      match jgetitem body "usage" with
                      | .error e => .error e
                      | .ok usagev =>
                          .ok (.jobj
                            [("id", idv),
                             ("object", .jstr "chat.completion"),
                             ("created", createdv),
                             ("model", .jstr modelName),
                             ("choices", .jarr outChoices),
                             ("usage", usagev)])

/-- The non-streaming response leg of `generate_ollama`:
model is the caller's name, `created_at` is `lm_response.get("created", "")`,
`response` is `lm_response.get("choices", [dict()])[0].get("text", "")` (the
default being a one-element list holding an empty dict), and `done` is
`True`, with Python's `.get`/indexing exceptions. -/
def ollamaResponseLeg (modelName : String) (body : JVal) : Except PyErr JVal :=
  match jget body "created" (.jstr "") with
  | .error e => .error e
  | .ok created =>
      match jget body "choices" (.jarr [.jobj []]) with
      | .error e => .error e
      | .ok choicesv =>
          match jindex0 choicesv with
          | .error e => .error e
          | .ok first =>
              match jget first "text" (.jstr "") with
              | .error e => .error e
              | .ok txt =>
                  .ok (.jobj
                    [("model", .jstr modelName),
                     ("created_at", created),
                     ("response", txt),
                     ("done", .jbool true)])

/-- The `/v1/chat/completions` handler: resolve the model alias, compile the
messages (any exception there is unhandled), stream directly if requested,
otherwise call upstream and translate the reply; the three `except` branches
raise `HTTPException` with the upstream status / 504 / 500. -/
def chat_completions (req : ChatRequest) (upstream : UnaryOutcome) : RouteResult :=
  match convert_messages_to_prompt req.messages with
  | .error e => .pythonError e
  | .ok prompt =>
      let payload := chatPayload req prompt
      if req.stream then .streaming payload
      else
        match upstream with
        | .success body =>
            match chatResponseLeg (resolveModel req.model) body with
            | .ok v => .json v
            | .error e => .pythonError e
        | .httpError s b => .httpError s ("LM Studio error: " ++ b)
        | .timeout => .httpError 504 "LM Studio request timed out"
        | .transportError d => .httpError 500 ("Request error: " ++ d)

/-- The `/api/generate` handler: keep the caller's model name untouched,
stream directly if requested, otherwise call upstream and build the lenient
Ollama-shaped reply; same three `except` branches as the chat route. -/
def generate_ollama (req : OllamaRequest) (upstream : UnaryOutcome) : RouteResult :=
  let payload := ollamaPayload req
  if req.stream then .streaming payload
  else
    match upstream with
    | .success body =>
        match ollamaResponseLeg req.model body with
        | .ok v => .json v
        | .error e => .pythonError e
    | .httpError s b => .httpError s ("LM Studio error: " ++ b)
    | .timeout => .httpError 504 "LM Studio request timed out"
    | .transportError d => .httpError 500 ("Request error: " ++ d)

/-- Lookup of a field of a JSON object (used to state properties of response
bodies). -/
def jfieldOf (v : JVal) (key : String) : Option JVal :=
  match v with
  | .jobj fs => lookupKey fs key
  | _ => none

/-- The description part of the error chunk that `stream_chat_response`
yields on a mid-stream failure. -/
def streamFailText : StreamFail → String
  | .timeout => "LM Studio request timed out"
  | .transport d => "Request failed: " ++ d

/-- A chat message with a string role and a string content, as a pair. -/
def encMsg (rc : String × String) : JVal :=
  .jobj [("role", .jstr rc.1), ("content", .jstr rc.2)]

/-- The line the Prompt Compiler produces for one role/content pair. -/
def lineOf (rc : String × String) : String :=
  pyUpperStr rc.1 ++ ": " ++ rc.2

/-- The raw accumulated prompt before the final strip: each line followed by
a newline, concatenated. -/
def concatLines : List (String × String) → String
  | [] => ""
  | rc :: rest => lineOf rc ++ "\n" ++ concatLines rest

/-- Lines joined by single newlines (the spec's phrasing of the prompt
shape). -/
def joinWithNewlines : List String → String
  | [] => ""
  | [l] => l
  | l :: ls => l ++ "\n" ++ joinWithNewlines ls

/-- A content fragment the Prompt Compiler can process without raising: if
it is a dict carrying a `"text"` key, that text must be a string (otherwise
`"\n".join` raises `TypeError`); everything else is skipped. -/
def goodFragment (item : JVal) : Bool :=
  match item with
  | .jobj fs =>
      match lookupKey fs "text" with
      | some (.jstr _) => true
      | some _ => false
      | none => true
  | _ => true

/-- Content the Prompt Compiler can process without raising: a list needs
well-typed fragments; any non-list value is formatted with `str()`. -/
def goodContent (v : JVal) : Bool :=
  match v with
  | .jarr items => items.all goodFragment
  | _ => true

/-- A message the Prompt Compiler can process without raising: it must be a
dict, its `role` (when present) must be a string (else `.upper()` raises
`AttributeError`), and its content must be processable. -/
def goodMessage (m : JVal) : Bool :=
  match m with
  | .jobj fs =>
      (match lookupKey fs "role" with
       | none => true
       | some (.jstr _) => true
       | some _ => false)
      &&
      (match lookupKey fs "content" with
       | none => true
       | some v => goodContent v)
  | _ => false

/-- The reply shapes on which the simple-completion response leg is lenient:
an object whose `choices` field is either absent or a nonempty array whose
first element is an object. -/
def ollamaLenient (body : JVal) : Bool :=
  match body with
  | .jobj fs =>
      match lookupKey fs "choices" with
      | none => true
      | some (.jarr (.jobj _ :: _)) => true
      | some _ => false
  | _ => false

/-- The `created_at` value of the simple-completion response: the upstream
`created` field, or the empty string if absent. -/
def ollamaCreated (fs : List (String × JVal)) : JVal :=
  (lookupKey fs "created").getD (.jstr "")

/-- The `response` value of the simple-completion response on a lenient
shape: the `text` of the first choice (empty string if the field is absent),
or the empty string when `choices` is absent. -/
def ollamaText (fs : List (String × JVal)) : JVal :=
  match lookupKey fs "choices" with
  | some (.jarr (.jobj g :: _)) => (lookupKey g "text").getD (.jstr "")
  | _ => .jstr ""

/-- A choice object of the upstream reply lacking one of the per-choice
required fields (`index`, `text`, `finish_reason`). -/
def badChoiceB (c : JVal) : Bool :=
  match c with
  | .jobj g =>
      (lookupKey g "index").isNone || (lookupKey g "text").isNone ||
        (lookupKey g "finish_reason").isNone
  | _ => false

/-- A reply object with one of the chat route's required fields absent:
`id`, `created`, `usage` or `choices` missing, or some choice (in an array
of choices) missing a per-choice field. -/
def chatReplyMissingRequired (body : JVal) : Bool :=
  match body with
  | .jobj fs =>
      (lookupKey fs "id").isNone || (lookupKey fs "created").isNone ||
      (lookupKey fs "usage").isNone ||
      (match lookupKey fs "choices" with
       | none => true
       | some (.jarr cs) => cs.any badChoiceB
       | some _ => false)
  | _ => false

/-- A concrete simple-completion request, used by concrete instances. -/
def reqG : OllamaRequest := { model := "m", prompt := "p" }

/-- A concrete chat request with an empty message list. -/
def chatReq0 : ChatRequest := { model := "qwen2.5", messages := [] }

/-- A concrete well-formed upstream reply. -/
def bodyOK : JVal :=
  .jobj [("id", .jstr "i"), ("created", .jnum 1),
         ("choices", .jarr [.jobj [("index", .jnum 0), ("text", .jstr "hello"),
                                   ("finish_reason", .jstr "stop")]]),
         ("usage", .jobj [])]

/-- The chat response the translation produces from `bodyOK`. -/
def vOK : JVal :=
  .jobj [("id", .jstr "i"), ("object", .jstr "chat.completion"),
         ("created", .jnum 1), ("model", .jstr "qwen2.5-coder-32b-instruct-mlx"),
         ("choices", .jarr [.jobj [("index", .jnum 0),
                                   ("message", .jobj [("role", .jstr "assistant"),
                                                      ("content", .jstr "hello")]),
                                   ("finish_reason", .jstr "stop")]]),
         ("usage", .jobj [])]

/-- The Ollama response the translation produces from `bodyOK`. -/
def wOK : JVal :=
  .jobj [("model", .jstr "m"), ("created_at", .jnum 1),
         ("response", .jstr "hello"), ("done", .jbool true)]

/-- A concrete lenient upstream reply for the simple route. -/
def fsC2 : List (String × JVal) :=
  [("created", .jnum 5), ("choices", .jarr [.jobj [("text", .jstr "hey")]])]

/-- A concrete upstream reply whose first-choice text carries the assistant
framing marker. -/
def fsC10 : List (String × JVal) :=
  [("choices", .jarr [.jobj [("text", .jstr "<|im_start|>Assistant### Hello")]])]

/-- A concrete upstream reply missing the `usage` field (the spec's own
example of a malformed chat reply). -/
def bodyC7 : JVal :=
  .jobj [("id", .jstr "i"), ("created", .jnum 1),
         ("choices", .jarr [.jobj [("index", .jnum 0), ("text", .jstr "t"),
                                   ("finish_reason", .jstr "stop")]])]

/-- `dropWhile` is idempotent. -/
theorem dropWhile_self (p : Char → Bool) (l : List Char) :
    (l.dropWhile p).dropWhile p = l.dropWhile p := by
  induction l with
  | nil => rfl
  | cons a l ih => by_cases h : p a <;> simp [List.dropWhile_cons, h, ih]

/-- The head surviving `dropWhile p` fails `p`. -/
theorem dropWhile_head_false (p : Char → Bool) (l : List Char) (a : Char)
    (t : List Char) (h : l.dropWhile p = a :: t) : p a = false := by
  induction l with
  | nil => simp at h
  | cons b l ih =>
    rw [List.dropWhile_cons] at h
    split at h
    · exact ih h
    · next hb => cases h; simpa using hb

/-- `trimBack` is idempotent. -/
theorem trimBack_idem (xs : List Char) : trimBack (trimBack xs) = trimBack xs := by
  unfold trimBack
  rw [List.reverse_reverse, dropWhile_self]

/-- A list that starts with a non-whitespace character (or is empty) is
untouched by a leading `dropWhile`. -/
theorem dropWhile_of_head (p : Char → Bool) (l : List Char)
    (h : ∀ a t, l = a :: t → p a = false) : l.dropWhile p = l := by
  cases l with
  | nil => rfl
  | cons a t => rw [List.dropWhile_cons, h a t rfl]; simp

/-- Stripping whitespace from both ends is idempotent. -/
theorem stripList_idem (xs : List Char) : stripList (stripList xs) = stripList xs := by
  unfold stripList
  have h1 : (trimBack ((xs.dropWhile isPyWS))).dropWhile isPyWS
      = trimBack (xs.dropWhile isPyWS) := by
    apply dropWhile_of_head
    intro a t h
    unfold trimBack at h
    have hq : (xs.dropWhile isPyWS).reverse.dropWhile isPyWS
        = (a :: t).reverse := by
      have := congrArg List.reverse h
      rwa [List.reverse_reverse] at this
    have hmem : ((xs.dropWhile isPyWS).reverse.dropWhile isPyWS).getLast? = some a := by
      rw [hq]
      cases t with
      | nil => rfl
      | cons b t' =>
        rw [show (a :: b :: t').reverse = (b :: t').reverse ++ [a] by simp]
        rw [List.getLast?_append_of_ne_nil _ (by simp)]
        rfl
    -- the dropWhile result is a suffix of the reversed list, so its last
    -- element is the reversed list's last element, i.e. the head of the
    -- stripped-front list, which is not whitespace
    obtain ⟨u, hu⟩ := List.dropWhile_suffix (l := (xs.dropWhile isPyWS).reverse) isPyWS
    have hne : (xs.dropWhile isPyWS).reverse.dropWhile isPyWS ≠ [] := by
      intro hnil; rw [hnil] at hmem; cases hmem
    have hlast : ((xs.dropWhile isPyWS).reverse).getLast? = some a := by
      rw [← hu, List.getLast?_append_of_ne_nil _ hne, hmem]
    have hhead : (xs.dropWhile isPyWS).head? = some a := by
      have := List.head?_reverse ((xs.dropWhile isPyWS).reverse)
      rw [List.reverse_reverse] at this
      rw [this, hlast]
    cases hdrop : xs.dropWhile isPyWS with
    | nil => rw [hdrop] at hhead; cases hhead
    | cons b t' =>
      rw [hdrop] at hhead
      have hb : b = a := by cases hhead; rfl
      subst hb
      exact dropWhile_head_false isPyWS xs b t' hdrop
  rw [h1, trimBack_idem]

/-- `containsMarker` on a cons unfolds to a disjunction. -/
theorem containsMarker_cons (c : Char) (cs : List Char) :
    containsMarker (c :: cs) = (markerAt (c :: cs) || containsMarker cs) := rfl

/-- When the marker occurs nowhere in the text, the first substitution is
the identity, whatever the fuel. -/
theorem subMarkerF_id (n : Nat) (xs : List Char)
    (h : containsMarker xs = false) : subMarkerF n xs = xs := by
  induction n generalizing xs with
  | zero => rfl
  | succ n ih =>
    cases xs with
    | nil => rfl
    | cons c cs =>
      rw [containsMarker_cons, Bool.or_eq_false_iff] at h
      unfold subMarkerF
      rw [h.1]
      simp [ih cs h.2]

/-- When the marker occurs nowhere in the text, `subMarker` is the
identity. -/
theorem subMarker_id (xs : List Char) (h : containsMarker xs = false) :
    subMarker xs = xs := subMarkerF_id xs.length xs h

/-- When no alternative of the second regex matches at the head, the second
substitution is the identity. -/
theorem stripLeadingAlts_id (xs : List Char) (h : eatAlt xs = none) :
    stripLeadingAlts xs = xs := by
  unfold stripLeadingAlts
  rw [h]

/-- C1 (amended).  The Response Cleaner is not idempotent in general; it is
idempotent on every input whose stripped text contains no case-insensitive
occurrence of the start-of-turn marker and does not begin with any
alternative of the assistant-prefix regex — on such inputs cleaning is
exactly whitespace trimming, and trimming is idempotent. -/
theorem spec_C1_amended (s : String)
    (h1 : containsMarker (stripList s.data) = false)
    (h2 : eatAlt (stripList s.data) = none) :
    clean_lm_response (clean_lm_response s) = clean_lm_response s := by
  unfold clean_lm_response
  rw [subMarker_id _ h1, stripLeadingAlts_id _ h2]
  show String.mk (stripLeadingAlts (subMarker (stripList (stripList s.data))))
      = String.mk (stripList s.data)
  rw [stripList_idem, subMarker_id _ h1, stripLeadingAlts_id _ h2]

/-- C1 (counterexample).  `clean(clean(x)) ≠ clean(x)` for
`x = "assistant: assistant: hi"`: the first application removes one leading
`ASSISTANT:` label and the whitespace after it, which exposes a second
leading label that only the second application removes. -/
theorem spec_C1_counterexample :
    clean_lm_response (clean_lm_response "assistant: assistant: hi")
      ≠ clean_lm_response "assistant: assistant: hi" := by decide

/-- C1 (witness): the amended idempotence at a concrete marker-free input. -/
theorem spec_C1_witness :
    containsMarker (stripList "  Hello world  ".data) = false ∧
    eatAlt (stripList "  Hello world  ".data) = none ∧
    clean_lm_response (clean_lm_response "  Hello world  ")
      = clean_lm_response "  Hello world  " :=
  ⟨by decide, by decide, spec_C1_amended "  Hello world  " (by decide) (by decide)⟩

/-- C3 (amended).  The Response Cleaner trims whitespace, then removes every
case-insensitive occurrence of the start-of-turn marker anywhere in the text
(each together with the whitespace after it), then removes one maximal
leading run of the alternatives `ASSISTANT###` / `ASSISTANT:` / `<` /
`im_start` / `>` (the unescaped pipes of the second regex make the intended
single token into this alternation) together with the whitespace after the
run; text matching none of these is unaltered apart from trimming; on
`"<|im_start|>Assistant### Hello"` it returns `"Hello"`. -/
theorem spec_C3_amended :
    clean_lm_response "<|im_start|>Assistant### Hello" = "Hello" ∧
    clean_lm_response "Hi <|im_start|>Assistant### there" = "Hi there" ∧
    clean_lm_response "<|im_start|>Assistant###A<|im_start|>Assistant###B" = "AB" ∧
    clean_lm_response "assistant:assistant: hi" = "hi" ∧
    clean_lm_response "im_start<> ok" = "ok" ∧
    clean_lm_response "  plain text  " = "plain text" := by
  refine ⟨by decide, by decide, by decide, by decide, by decide, by decide⟩

/-- C3 (counterexample).  The cleaner does alter text whose only marker
occurrence is in the middle: the first substitution removes every
occurrence, not just a leading one. -/
theorem spec_C3_counterexample :
    clean_lm_response "Hi <|im_start|>Assistant### there"
      ≠ "Hi <|im_start|>Assistant### there" := by decide

/-- The accumulation loop on role/content string pairs: it appends
`"ROLE: content\n"` per message and strips the result. -/
theorem convertAux_pairs (rcs : List (String × String)) (acc : String) :
    convertAux acc (rcs.map encMsg) = .ok (pyStripStr (acc ++ concatLines rcs)) := by
  induction rcs generalizing acc with
  | nil => simp [convertAux, concatLines, String.append_empty]
  | cons rc rest ih =>
    obtain ⟨r, c⟩ := rc
    have step : convertAux acc (List.map encMsg ((r, c) :: rest))
        = convertAux (acc ++ pyUpperStr r ++ ": " ++ c ++ "\n") (List.map encMsg rest) := rfl
    rw [step, ih]
    have harr : (acc ++ pyUpperStr r ++ ": " ++ c ++ "\n") ++ concatLines rest
        = acc ++ concatLines ((r, c) :: rest) := by
      simp [concatLines, lineOf, String.append_assoc]
    rw [harr]

/-- For a nonempty message list the raw accumulated prompt is the
newline-join of the lines followed by one trailing newline. -/
theorem concatLines_eq_join (rcs : List (String × String)) (h : rcs ≠ []) :
    concatLines rcs = joinWithNewlines (rcs.map lineOf) ++ "\n" := by
  induction rcs with
  | nil => exact absurd rfl h
  | cons rc rest ih =>
    cases rest with
    | nil => simp [concatLines, joinWithNewlines, String.append_empty]
    | cons rc2 rest2 =>
      have ih' := ih (by simp)
      rw [show concatLines (rc :: rc2 :: rest2)
            = lineOf rc ++ "\n" ++ concatLines (rc2 :: rest2) from rfl, ih']
      rw [show joinWithNewlines ((rc :: rc2 :: rest2).map lineOf)
            = lineOf rc ++ "\n" ++ joinWithNewlines ((rc2 :: rest2).map lineOf) from rfl]
      simp [String.append_assoc]

/-- Appending a whitespace character leaves a fully-whitespace prefix fully
whitespace. -/
theorem dropWhile_append_ws_nil (w : Char → Bool) (xs : List Char) (c : Char)
    (h : xs.dropWhile w = []) (hc : w c = true) : (xs ++ [c]).dropWhile w = [] := by
  induction xs with
  | nil => simp [List.dropWhile_cons, hc]
  | cons a t ih =>
    rw [List.dropWhile_cons] at h
    split at h
    · next ha => simp only [List.cons_append, List.dropWhile_cons, ha, if_true]; exact ih h
    · cases h

/-- Appending a character after a prefix that survives `dropWhile` keeps the
survivor in place. -/
theorem dropWhile_append_cons (w : Char → Bool) (xs : List Char) (c a : Char)
    (t : List Char) (h : xs.dropWhile w = a :: t) :
    (xs ++ [c]).dropWhile w = a :: (t ++ [c]) := by
  induction xs with
  | nil => simp at h
  | cons b u ih =>
    rw [List.dropWhile_cons] at h
    split at h
    · next hb => simp only [List.cons_append, List.dropWhile_cons, hb, if_true]; exact ih h
    · next hb =>
      cases h
      simp only [List.cons_append, List.dropWhile_cons, hb, if_false]
      simp

/-- Trailing whitespace is absorbed by `trimBack`. -/
theorem trimBack_append_ws (ys : List Char) (c : Char) (hc : isPyWS c = true) :
    trimBack (ys ++ [c]) = trimBack ys := by
  unfold trimBack
  rw [List.reverse_append]
  simp [List.dropWhile_cons, hc]

/-- A trailing newline is absorbed by `strip`. -/
theorem pyStrip_append_newline (s : String) : pyStripStr (s ++ "\n") = pyStripStr s := by
  unfold pyStripStr
  congr 1
  rw [show (s ++ "\n").data = s.data ++ ['\n'] from String.data_append s "\n"]
  unfold stripList
  cases h : s.data.dropWhile isPyWS with
  | nil => rw [dropWhile_append_ws_nil _ _ _ h (by decide)]
  | cons a t =>
    rw [dropWhile_append_cons _ _ _ _ _ h]
    exact trimBack_append_ws (a :: t) '\n' (by decide)

/-- C8.  The Prompt Compiler maps each message to the line
`"<ROLE-UPPERCASE>: <content>"`, joins the lines by newlines and trims the
result (proved for every list of string-role/string-content messages);
string content is used verbatim; sequence content is the newline-join of the
`text` fragments in order with other fragments skipped; the role defaults to
`"user"` when absent. -/
theorem spec_C8 :
    (∀ rcs : List (String × String),
       convert_messages_to_prompt (rcs.map encMsg)
         = .ok (pyStripStr (joinWithNewlines (rcs.map lineOf)))) ∧
    convert_messages_to_prompt
        [.jobj [("role", .jstr "user"), ("content", .jstr "hi")],
         .jobj [("role", .jstr "assistant"), ("content", .jstr "yo")]]
      = .ok "USER: hi\nASSISTANT: yo" ∧
    convert_messages_to_prompt
        [.jobj [("role", .jstr "user"),
                ("content", .jarr [.jobj [("text", .jstr "a")],
                                   .jobj [("other", .jstr "x")],
                                   .jobj [("text", .jstr "b")]])]]
      = .ok "USER: a\nb" ∧
    convert_messages_to_prompt [.jobj [("content", .jstr "x")]] = .ok "USER: x" := by
  refine ⟨?_, rfl, rfl, rfl⟩
  intro rcs
  unfold convert_messages_to_prompt
  rw [convertAux_pairs, String.empty_append]
  cases rcs with
  | nil => rfl
  | cons rc rest =>
    rw [concatLines_eq_join _ (by simp), pyStrip_append_newline]

/-- Well-typed fragments never make the newline-join raise. -/
theorem joinTexts_total (items : List JVal) (h : items.all goodFragment = true) :
    ∃ ss, joinAsStrings (textFragments items) = .ok ss := by
  induction items with
  | nil => exact ⟨[], rfl⟩
  | cons i rest ih =>
    rw [List.all_cons, Bool.and_eq_true] at h
    obtain ⟨ss, hss⟩ := ih h.2
    cases i with
    | jobj fs =>
      cases ht : lookupKey fs "text" with
      | none => exact ⟨ss, by simp [textFragments, ht, hss]⟩
      | some w =>
        have hw := h.1
        rw [show goodFragment (.jobj fs)
              = (match lookupKey fs "text" with
                 | some (.jstr _) => true | some _ => false | none => true) from rfl,
            ht] at hw
        cases w with
        | jstr s => exact ⟨s :: ss, by simp [textFragments, ht, joinAsStrings, hss]⟩
        | jnull => simp at hw
        | jbool b => simp at hw
        | jnum n => simp at hw
        | jarr xs => simp at hw
        | jobj g => simp at hw
    | jnull => exact ⟨ss, by simpa [textFragments] using hss⟩
    | jbool b => exact ⟨ss, by simpa [textFragments] using hss⟩
    | jnum n => exact ⟨ss, by simpa [textFragments] using hss⟩
    | jstr s => exact ⟨ss, by simpa [textFragments] using hss⟩
    | jarr xs => exact ⟨ss, by simpa [textFragments] using hss⟩

/-- Processable content never makes content resolution raise. -/
theorem contentToString_total (v : JVal) (h : goodContent v = true) :
    ∃ s, contentToString v = .ok s := by
  cases v with
  | jarr items =>
    obtain ⟨ss, hss⟩ := joinTexts_total items (by simpa [goodContent] using h)
    exact ⟨pyJoin "\n" ss, by simp [contentToString, hss]⟩
  | jstr s => exact ⟨s, rfl⟩
  | jnull => exact ⟨pyStr .jnull, rfl⟩
  | jbool b => exact ⟨pyStr (.jbool b), rfl⟩
  | jnum n => exact ⟨pyStr (.jnum n), rfl⟩
  | jobj fs => exact ⟨pyStr (.jobj fs), rfl⟩

/-- The accumulation loop is total on lists of processable messages. -/
theorem convertAux_total (msgs : List JVal) :
    ∀ acc, (∀ m ∈ msgs, goodMessage m = true) →
      ∃ s, convertAux acc msgs = .ok s := by
  induction msgs with
  | nil => exact fun acc _ => ⟨pyStripStr acc, rfl⟩
  | cons m ms ih =>
    intro acc h
    have hm := h m (by simp)
    have hms : ∀ x ∈ ms, goodMessage x = true := fun x hx => h x (by simp [hx])
    cases m with
    | jobj fs =>
      rw [show goodMessage (.jobj fs)
            = ((match lookupKey fs "role" with
                | none => true | some (.jstr _) => true | some _ => false)
               &&
               (match lookupKey fs "content" with
                | none => true | some v => goodContent v)) from rfl,
          Bool.and_eq_true] at hm
      obtain ⟨hrole, hcontent⟩ := hm
      have hcv : ∃ cv, jget (.jobj fs) "content" (.jstr "") = .ok cv
          ∧ goodContent cv = true := by
        cases hc : lookupKey fs "content" with
        | none => exact ⟨.jstr "", by simp [jget, hc], rfl⟩
        | some v =>
          rw [hc] at hcontent
          exact ⟨v, by simp [jget, hc], hcontent⟩
      obtain ⟨cv, hcv1, hcv2⟩ := hcv
      obtain ⟨cs, hcs⟩ := contentToString_total cv hcv2
      have hrv : ∃ rs, jget (.jobj fs) "role" (.jstr "user") = .ok (.jstr rs) := by
        cases hr : lookupKey fs "role" with
        | none => exact ⟨"user", by simp [jget, hr]⟩
        | some v =>
          rw [hr] at hrole
          cases v with
          | jstr s => exact ⟨s, by simp [jget, hr]⟩
          | jnull => simp at hrole
          | jbool b => simp at hrole
          | jnum n => simp at hrole
          | jarr xs => simp at hrole
          | jobj g => simp at hrole
      obtain ⟨rs, hrs⟩ := hrv
      obtain ⟨out, hout⟩ := ih (acc ++ pyUpperStr rs ++ ": " ++ cs ++ "\n") hms
      refine ⟨out, ?_⟩
      rw [show convertAux acc (.jobj fs :: ms)
            = (match jget (.jobj fs) "role" (.jstr "user") with
               | .error e => .error e
               | .ok roleV =>
                   match jget (.jobj fs) "content" (.jstr "") with
                   | .error e => .error e
                   | .ok contentV =>
                       match contentToString contentV with
                       | .error e => .error e
                       | .ok contentS =>
                           match pyUpper roleV with
                           | .error e => .error e
                           | .ok roleS =>
                               convertAux (acc ++ roleS ++ ": " ++ contentS ++ "\n") ms)
            from rfl,
          hrs, hcv1]
      simp only [hcs, pyUpper]
      exact hout
    | jnull => simp [goodMessage] at hm
    | jbool b => simp [goodMessage] at hm
    | jnum n => simp [goodMessage] at hm
    | jstr s => simp [goodMessage] at hm
    | jarr xs => simp [goodMessage] at hm

/-- C9 (amended).  The Prompt Compiler is total on every sequence of
messages that are objects whose `role`, when present, is a string and whose
list-content fragments carry only string `text` fields; content of any
other type (neither string nor list) is stringified rather than rejected,
and fragments without a `text` field are skipped.  A message that is not an
object, or a non-string role, raises an error (see the counterexample). -/
theorem spec_C9_amended (msgs : List JVal)
    (h : ∀ m ∈ msgs, goodMessage m = true) :
    ∃ s, convert_messages_to_prompt msgs = .ok s :=
  convertAux_total msgs "" h

/-- C9 (counterexample).  A message that is not an object makes the Prompt
Compiler raise `AttributeError` (`msg.get` does not exist on a `str`), so
the compiler is not total on arbitrary message lists. -/
theorem spec_C9_counterexample :
    convert_messages_to_prompt [.jstr "hi"] = .error .attributeError := rfl

/-- C9 (witness): totality at a concrete well-formed message list with both
string and structured content. -/
theorem spec_C9_witness :
    (∀ m ∈ [JVal.jobj [("role", JVal.jstr "user"), ("content", JVal.jstr "ok")],
            JVal.jobj [("content", JVal.jarr [JVal.jobj [("text", JVal.jstr "a")],
                                              JVal.jnum 3])]],
        goodMessage m = true) ∧
    ∃ s, convert_messages_to_prompt
        [JVal.jobj [("role", JVal.jstr "user"), ("content", JVal.jstr "ok")],
         JVal.jobj [("content", JVal.jarr [JVal.jobj [("text", JVal.jstr "a")],
                                           JVal.jnum 3])]] = .ok s :=
  ⟨by decide, spec_C9_amended _ (by decide)⟩

/-- On a lenient reply shape the simple-completion route returns the
Ollama-shaped JSON body built from the caller's model name, the `created`
field (or empty string) and the first choice's `text` (or empty string). -/
theorem generate_success_json (req : OllamaRequest) (fs : List (String × JVal))
    (hs : req.stream = false) (hl : ollamaLenient (.jobj fs) = true) :
    generate_ollama req (.success (.jobj fs)) =
      .json (.jobj [("model", .jstr req.model), ("created_at", ollamaCreated fs),
                    ("response", ollamaText fs), ("done", .jbool true)]) := by
  have hleg : ollamaResponseLeg req.model (.jobj fs) =
      .ok (.jobj [("model", .jstr req.model), ("created_at", ollamaCreated fs),
                  ("response", ollamaText fs), ("done", .jbool true)]) := by
    unfold ollamaResponseLeg
    cases hc : lookupKey fs "choices" with
    | none =>
      simp [jget, hc, jindex0, ollamaCreated, ollamaText, lookupKey]
    | some v =>
      rw [show ollamaLenient (.jobj fs)
            = (match lookupKey fs "choices" with
               | none => true
               | some (.jarr (.jobj _ :: _)) => true
               | some _ => false) from rfl, hc] at hl
      cases v with
      | jarr xs =>
        cases xs with
        | nil => simp at hl
        | cons x rest =>
          cases x with
          | jobj g => simp [jget, hc, jindex0, ollamaCreated, ollamaText]
          | jnull => simp at hl
          | jbool b => simp at hl
          | jnum n => simp at hl
          | jstr s => simp at hl
          | jarr ys => simp at hl
      | jnull => simp at hl
      | jbool b => simp at hl
      | jnum n => simp at hl
      | jstr s => simp at hl
      | jobj g => simp at hl
  unfold generate_ollama
  rw [hs]
  simp [hleg]

/-- C2 (amended).  On the simple-completion route the non-streaming response
leg is lenient on every reply that is an object whose `choices` field is
absent or is a nonempty array with an object first element: the body is
`model` = the caller's original model name, `created_at` = the upstream
`created` field or empty string if absent, `response` = the text of the
first choice or empty string if absent, `done` = true.  The leg is not
total: a present-but-empty `choices` list makes it fail with an unhandled
`IndexError` (see the counterexample). -/
theorem spec_C2_amended (req : OllamaRequest) (body : JVal)
    (fs : List (String × JVal)) (hs : req.stream = false) (hb : body = .jobj fs)
    (hl : ollamaLenient body = true) :
    generate_ollama req (.success body) =
      .json (.jobj [("model", .jstr req.model), ("created_at", ollamaCreated fs),
                    ("response", ollamaText fs), ("done", .jbool true)]) := by
  subst hb
  exact generate_success_json req fs hs hl

/-- C2 (counterexample).  A reply with a present but empty `choices` list
makes the simple-completion response leg fail (Python `[][0]` raises
`IndexError`, surfaced by FastAPI as a 500), so the leg is not total. -/
theorem spec_C2_counterexample :
    generate_ollama reqG (.success (.jobj [("choices", .jarr [])]))
        = .pythonError .indexError ∧
    resultStatus (generate_ollama reqG (.success (.jobj [("choices", .jarr [])]))) = 500 :=
  ⟨rfl, rfl⟩

/-- C2 (witness): the lenient shape at a concrete reply carrying both a
`created` field and one choice with text. -/
theorem spec_C2_witness :
    reqG.stream = false ∧ ollamaLenient (.jobj fsC2) = true ∧
    generate_ollama reqG (.success (.jobj fsC2)) =
      .json (.jobj [("model", .jstr "m"), ("created_at", .jnum 5),
                    ("response", .jstr "hey"), ("done", .jbool true)]) :=
  ⟨rfl, rfl, spec_C2_amended reqG (.jobj fsC2) fsC2 rfl rfl rfl⟩

/-- C10.  On the simple-completion route the non-streaming `response` value
is the upstream first-choice text verbatim — the Response Cleaner is never
applied on this route — and the cleaner is not a no-op on marker-framed
text, so such framing reaches the caller unstripped. -/
theorem spec_C10 :
    (∀ (req : OllamaRequest) (fs : List (String × JVal)) (s : String),
       req.stream = false → ollamaLenient (.jobj fs) = true →
       ollamaText fs = .jstr s →
       generate_ollama req (.success (.jobj fs)) =
         .json (.jobj [("model", .jstr req.model), ("created_at", ollamaCreated fs),
                       ("response", .jstr s), ("done", .jbool true)])) ∧
    clean_lm_response "<|im_start|>Assistant### Hello"
      ≠ "<|im_start|>Assistant### Hello" := by
  refine ⟨?_, by decide⟩
  intro req fs s hs hl ht
  rw [generate_success_json req fs hs hl, ht]

/-- C10 (witness): a concrete reply whose first-choice text carries the
assistant framing marker is returned with the marker intact. -/
theorem spec_C10_witness :
    reqG.stream = false ∧ ollamaLenient (.jobj fsC10) = true ∧
    ollamaText fsC10 = .jstr "<|im_start|>Assistant### Hello" ∧
    generate_ollama reqG (.success (.jobj fsC10)) =
      .json (.jobj [("model", .jstr "m"), ("created_at", .jstr ""),
                    ("response", .jstr "<|im_start|>Assistant### Hello"),
                    ("done", .jbool true)]) :=
  ⟨rfl, rfl, rfl, spec_C10.1 reqG fsC10 "<|im_start|>Assistant### Hello" rfl rfl rfl⟩

/-- C5 (counterexample).  On a non-2xx upstream status the streaming
generator does not end with an ERROR chunk: the except handler evaluates
`e.response.text` on a streamed, never-read response, which raises
`httpx.ResponseNotRead` inside the handler, so the generator crashes having
produced no chunk at all — contradicting "on any failure the sequence's
final element is one ERROR chunk" and "the streaming path never raises". -/
theorem spec_C5_counterexample :
    stream_chat_response (.statusError 503 "busy") = .raised [] .responseNotRead := rfl

/-- C5 (amended).  Streaming relays upstream chunks verbatim in arrival
order; on a mid-stream failure (timeout or transport error) the final
produced element is exactly one `"ERROR: <description>"` chunk after which
the sequence ends — in particular two chunks followed by such a failure
yield those two chunks and one ERROR chunk — and no structured error
reaches the caller on those paths; a clean stream is relayed unchanged; but
on an upstream status error the generator raises `ResponseNotRead` from
inside its own except handler and produces no chunk. -/
theorem spec_C5_amended :
    (∀ (cs : List String) (f : StreamFail),
       stream_chat_response (.streamed cs (some f))
         = .done (cs ++ ["ERROR: " ++ streamFailText f])) ∧
    (∀ cs : List String, stream_chat_response (.streamed cs none) = .done cs) ∧
    (∀ (st : Nat) (b : String),
       stream_chat_response (.statusError st b) = .raised [] .responseNotRead) ∧
    stream_chat_response (.streamed ["chunk1", "chunk2"] (some .timeout))
      = .done ["chunk1", "chunk2", "ERROR: LM Studio request timed out"] := by
  refine ⟨?_, fun cs => rfl, fun st b => rfl, rfl⟩
  intro cs f
  cases f with
  | timeout => rfl
  | transport d => rfl

/-- C6.  For non-streaming requests on either route (provided, on the chat
route, that prompt compilation succeeded so that the upstream call is
reached): a non-2xx upstream status is propagated with the same status code
and the upstream body text embedded in the error detail; a timeout of the
120-second upstream call yields a 504; any other transport failure yields a
500 carrying the failure description. -/
theorem spec_C6 :
    (∀ (req : ChatRequest) (p : String), req.stream = false →
       convert_messages_to_prompt req.messages = .ok p →
       (∀ (st : Nat) (b : String),
          chat_completions req (.httpError st b)
            = .httpError st ("LM Studio error: " ++ b)) ∧
       chat_completions req .timeout = .httpError 504 "LM Studio request timed out" ∧
       (∀ d : String, chat_completions req (.transportError d)
            = .httpError 500 ("Request error: " ++ d))) ∧
    (∀ req : OllamaRequest, req.stream = false →
       (∀ (st : Nat) (b : String),
          generate_ollama req (.httpError st b)
            = .httpError st ("LM Studio error: " ++ b)) ∧
       generate_ollama req .timeout = .httpError 504 "LM Studio request timed out" ∧
       (∀ d : String, generate_ollama req (.transportError d)
            = .httpError 500 ("Request error: " ++ d))) ∧
    UPSTREAM_TIMEOUT_SECONDS = 120 := by
  refine ⟨?_, ?_, rfl⟩
  · intro req p hs hconv
    refine ⟨fun st b => ?_, ?_, fun d => ?_⟩ <;>
      · unfold chat_completions
        rw [hconv, hs]
        rfl
  · intro req hs
    refine ⟨fun st b => ?_, ?_, fun d => ?_⟩ <;>
      · unfold generate_ollama
        rw [hs]
        rfl

/-- C6 (witness): the three failure mappings at concrete requests. -/
theorem spec_C6_witness :
    chatReq0.stream = false ∧
    convert_messages_to_prompt chatReq0.messages = .ok "" ∧
    reqG.stream = false ∧
    chat_completions chatReq0 (.httpError 503 "busy")
      = .httpError 503 "LM Studio error: busy" ∧
    chat_completions chatReq0 .timeout
      = .httpError 504 "LM Studio request timed out" ∧
    generate_ollama reqG (.transportError "boom")
      = .httpError 500 "Request error: boom" :=
  ⟨rfl, rfl, rfl,
   (spec_C6.1 chatReq0 "" rfl rfl).1 503 "busy",
   (spec_C6.1 chatReq0 "" rfl rfl).2.1,
   (spec_C6.2.1 reqG rfl).2.2 "boom"⟩

/-- C4.  The alias table is applied only on the chat route: `"qwen2.5"`
resolves to `"qwen2.5-coder-32b-instruct-mlx"`; the chat payload's model is
always the resolved name and the chat response's `model` field is the
resolved name passed to the response leg; the simple-completion payload is
the caller's request verbatim (model byte for byte), and the simple
response's `model` field is the caller's model name. -/
theorem spec_C4 :
    resolveModel "qwen2.5" = "qwen2.5-coder-32b-instruct-mlx" ∧
    (∀ (req : ChatRequest) (p : String),
       (chatPayload req p).model = resolveModel req.model) ∧
    (∀ req : OllamaRequest,
       ollamaPayload req = { model := req.model, prompt := req.prompt,
                             temperature := req.temperature,
                             max_tokens := req.max_tokens, stream := req.stream }) ∧
    (∀ (m : String) (body v : JVal),
       chatResponseLeg m body = .ok v → jfieldOf v "model" = some (.jstr m)) ∧
    (∀ (req : OllamaRequest) (body v : JVal),
       ollamaResponseLeg req.model body = .ok v →
         jfieldOf v "model" = some (.jstr req.model)) := by
  refine ⟨rfl, fun req p => rfl, fun req => rfl, ?_, ?_⟩
  · intro m body v h
    unfold chatResponseLeg at h
    repeat' split at h
    all_goals cases h
    rfl
  · intro req body v h
    unfold ollamaResponseLeg at h
    repeat' split at h
    all_goals cases h
    rfl

/-- C4 (witness): both response legs at a concrete well-formed reply carry
the model name they were given — the resolved alias on the chat route, the
caller's name on the simple route. -/
theorem spec_C4_witness :
    chatResponseLeg "qwen2.5-coder-32b-instruct-mlx" bodyOK = .ok vOK ∧
    jfieldOf vOK "model" = some (.jstr "qwen2.5-coder-32b-instruct-mlx") ∧
    ollamaResponseLeg reqG.model bodyOK = .ok wOK ∧
    jfieldOf wOK "model" = some (.jstr reqG.model) :=
  ⟨rfl,
   spec_C4.2.2.2.1 "qwen2.5-coder-32b-instruct-mlx" bodyOK vOK rfl,
   rfl,
   spec_C4.2.2.2.2 reqG bodyOK wOK rfl⟩

/-- A choice missing one of its required fields makes the per-choice
translation raise. -/
theorem mapChoice_fails (c : JVal) (h : badChoiceB c = true) :
    ∃ e, mapChoice c = .error e := by
  cases c with
  | jobj g =>
    rw [show badChoiceB (.jobj g)
          = ((lookupKey g "index").isNone || (lookupKey g "text").isNone ||
              (lookupKey g "finish_reason").isNone) from rfl] at h
    cases h1 : lookupKey g "index" with
    | none => exact ⟨.keyError, by simp [mapChoice, jgetitem, h1]⟩
    | some idx =>
      cases h2 : lookupKey g "text" with
      | none => exact ⟨.keyError, by simp [mapChoice, jgetitem, h1, h2]⟩
      | some txt =>
        cases h3 : lookupKey g "finish_reason" with
        | none =>
          cases txt with
          | jstr s => exact ⟨.keyError, by simp [mapChoice, jgetitem, h1, h2, h3]⟩
          | jnull => exact ⟨.attributeError, by simp [mapChoice, jgetitem, h1, h2]⟩
          | jbool b => exact ⟨.attributeError, by simp [mapChoice, jgetitem, h1, h2]⟩
          | jnum n => exact ⟨.attributeError, by simp [mapChoice, jgetitem, h1, h2]⟩
          | jarr xs => exact ⟨.attributeError, by simp [mapChoice, jgetitem, h1, h2]⟩
          | jobj g2 => exact ⟨.attributeError, by simp [mapChoice, jgetitem, h1, h2]⟩
        | some fin =>
          rw [h1, h2, h3] at h
          simp at h
  | jnull => simp [badChoiceB] at h
  | jbool b => simp [badChoiceB] at h
  | jnum n => simp [badChoiceB] at h
  | jstr s => simp [badChoiceB] at h
  | jarr xs => simp [badChoiceB] at h

/-- If some choice in the list is missing a required field, the whole
comprehension raises. -/
theorem mapChoices_fails (cs : List JVal) (h : cs.any badChoiceB = true) :
    ∃ e, mapChoices cs = .error e := by
  induction cs with
  | nil => simp at h
  | cons c rest ih =>
    rw [List.any_cons] at h
    cases hc : mapChoice c with
    | error e => exact ⟨e, by simp [mapChoices, hc]⟩
    | ok v =>
      have hb : badChoiceB c = false := by
        by_contra hb'
        obtain ⟨e, he⟩ := mapChoice_fails c (by simpa using hb')
        rw [he] at hc
        cases hc
      rw [hb] at h
      simp only [Bool.false_or] at h
      obtain ⟨e, he⟩ := ih h
      exact ⟨e, by simp [mapChoices, hc, he]⟩

/-- A reply with a required field absent makes the chat response leg
raise. -/
theorem chatLeg_fails (m : String) (body : JVal)
    (h : chatReplyMissingRequired body = true) :
    ∃ e, chatResponseLeg m body = .error e := by
  cases body with
  | jobj fs =>
    rw [show chatReplyMissingRequired (.jobj fs)
          = ((lookupKey fs "id").isNone || (lookupKey fs "created").isNone ||
             (lookupKey fs "usage").isNone ||
             (match lookupKey fs "choices" with
              | none => true
              | some (.jarr cs) => cs.any badChoiceB
              | some _ => false)) from rfl] at h
    cases h1 : lookupKey fs "id" with
    | none => exact ⟨.keyError, by simp [chatResponseLeg, jgetitem, h1]⟩
    | some idv =>
      cases h2 : lookupKey fs "created" with
      | none => exact ⟨.keyError, by simp [chatResponseLeg, jgetitem, h1, h2]⟩
      | some cv =>
        cases h3 : lookupKey fs "choices" with
        | none => exact ⟨.keyError, by simp [chatResponseLeg, jgetitem, h1, h2, h3]⟩
        | some chv =>
          cases h4 : lookupKey fs "usage" with
          | none =>
            cases h5 : jiter chv with
            | error e =>
              exact ⟨e, by simp [chatResponseLeg, jgetitem, h1, h2, h3, h5]⟩
            | ok items =>
              cases h6 : mapChoices items with
              | error e =>
                exact ⟨e, by simp [chatResponseLeg, jgetitem, h1, h2, h3, h5, h6]⟩
              | ok outs =>
                exact ⟨.keyError,
                  by simp [chatResponseLeg, jgetitem, h1, h2, h3, h4, h5, h6]⟩
          | some uv =>
            rw [h1, h2, h3, h4] at h
            simp only [Option.isNone_some, Bool.false_or] at h
            cases chv with
            | jarr cs =>
              obtain ⟨e, he⟩ := mapChoices_fails cs (by simpa using h)
              exact ⟨e, by simp [chatResponseLeg, jgetitem, h1, h2, h3, jiter, he]⟩
            | jnull => simp at h
            | jbool b => simp at h
            | jnum n => simp at h
            | jstr s => simp at h
            | jobj g => simp at h
  | jnull => simp [chatReplyMissingRequired] at h
  | jbool b => simp [chatReplyMissingRequired] at h
  | jnum n => simp [chatReplyMissingRequired] at h
  | jstr s => simp [chatReplyMissingRequired] at h
  | jarr xs => simp [chatReplyMissingRequired] at h

/-- C7.  On the chat route the non-streaming response leg has no defaults:
whenever a required field of the upstream reply (`id`, `created`, `choices`,
`usage`, or a per-choice `index`, `text` or `finish_reason`) is absent, the
handler raises (FastAPI surfaces this as a 500) and never returns a JSON
response. -/
theorem spec_C7 (req : ChatRequest) (body : JVal) (hs : req.stream = false)
    (hm : chatReplyMissingRequired body = true) :
    (∃ e, chat_completions req (.success body) = .pythonError e) ∧
    resultStatus (chat_completions req (.success body)) = 500 := by
  cases hconv : convert_messages_to_prompt req.messages with
  | error e =>
    refine ⟨⟨e, ?_⟩, ?_⟩ <;> simp [chat_completions, hconv, resultStatus]
  | ok p =>
    obtain ⟨e, he⟩ := chatLeg_fails (resolveModel req.model) body hm
    have hres : chat_completions req (.success body) = .pythonError e := by
      unfold chat_completions
      rw [hconv, hs]
      simp [he]
    exact ⟨⟨e, hres⟩, by rw [hres]; rfl⟩

/-- C7 (witness): the spec's own example — a reply missing `usage` — makes
the chat handler fail with a 500. -/
theorem spec_C7_witness :
    chatReq0.stream = false ∧ chatReplyMissingRequired bodyC7 = true ∧
    (∃ e, chat_completions chatReq0 (.success bodyC7) = .pythonError e) ∧
    resultStatus (chat_completions chatReq0 (.success bodyC7)) = 500 :=
  ⟨rfl, rfl, (spec_C7 chatReq0 bodyC7 rfl rfl).1, (spec_C7 chatReq0 bodyC7 rfl rfl).2⟩
